import Mathlib

/-!
A shallow embedding, in Lean 4, of the streaming chat client of this
repository: the event-frame decoding loop of
`ChatAPI.sendMessageStream` (src/api/chat.ts) and the conversation
state cache operations of `ChatContextProvider`
(src/contexts/ChatContext.tsx), together with theorems about them.

Modelling conventions:
  * JavaScript strings are modelled by Lean `String` (the byte/UTF-16
    distinction is irrelevant to the properties proved here, which use
    ASCII data and character-level splits).
  * `JSON.parse` is modelled by an executable recursive-descent parser
    `parseJson` over a `JsonVal` inductive; numbers are kept as their
    lexeme since no code path inspects a numeric value.
  * The wall clock (`new Date().toISOString()`) is passed in as an
    explicit `now : String` argument.
  * The React Query cache (`queryClient.setQueryData` keyed by
    conversation id) is modelled by an association list from
    conversation id to message list, with the source's `old = []`
    default for absent keys.
-/

namespace Chatask

/-! ## JSON values and a model of JSON.parse -/

/-- A JSON value as produced by `JSON.parse`.  Object fields are kept
in textual order; `getField` takes the last binding of a key, matching
the later-key-wins semantics of JavaScript object construction.
Numbers are kept as their source lexeme. -/
inductive JsonVal where
  | null : JsonVal
  | bool : Bool → JsonVal
  | num : String → JsonVal
  | str : String → JsonVal
  | arr : List JsonVal → JsonVal
  | obj : List (String × JsonVal) → JsonVal

/-- Property access `data.key` on a parsed JSON value: defined on
objects only (anything else yields `none`, modelling `undefined`);
with duplicate keys the last one wins, as in JavaScript. -/
def JsonVal.getField : JsonVal → String → Option JsonVal
  | JsonVal.obj fields, key => (fields.reverse.find? (fun f => f.1 == key)).map (fun f => f.2)
  | _, _ => none

/-- JSON whitespace (space, tab, line feed, carriage return). -/
def isJsonWs (c : Char) : Bool :=
  c = ' ' || c = '\t' || c = '\n' || c = '\r'

/-- Skip leading JSON whitespace. -/
def skipWs : List Char → List Char
  | [] => []
  | c :: cs => if isJsonWs c then skipWs cs else c :: cs

/-- Value of one hexadecimal digit. -/
def hexVal (c : Char) : Option Nat :=
  if '0' ≤ c ∧ c ≤ '9' then some (c.toNat - '0'.toNat)
  else if 'a' ≤ c ∧ c ≤ 'f' then some (c.toNat - 'a'.toNat + 10)
  else if 'A' ≤ c ∧ c ≤ 'F' then some (c.toNat - 'A'.toNat + 10)
  else none

/-- Four hexadecimal digits of a \u escape. -/
def parseHex4 : List Char → Option (Nat × List Char)
  | a :: b :: c :: d :: rest =>
    match hexVal a, hexVal b, hexVal c, hexVal d with
    | some va, some vb, some vc, some vd =>
      some ((((va * 16 + vb) * 16 + vc) * 16 + vd), rest)
    | _, _, _, _ => none
  | _ => none

/-- One-character JSON string escapes. -/
def escChar (c : Char) : Option Char :=
  if c = '"' then some '"'
  else if c = '\\' then some '\\'
  else if c = '/' then some '/'
  else if c = 'b' then some (Char.ofNat 8)
  else if c = 'f' then some (Char.ofNat 12)
  else if c = 'n' then some '\n'
  else if c = 'r' then some '\r'
  else if c = 't' then some '\t'
  else none

/-- Body of a JSON string after the opening quote; returns the decoded
string and the input after the closing quote.  Unescaped control
characters are refused, as in `JSON.parse`. -/
def parseStringBody : Nat → List Char → List Char → Option (String × List Char)
  | 0, _, _ => none
  | _ + 1, [], _ => none
  | fuel + 1, c :: cs, acc =>
    if c = '"' then some (String.mk acc.reverse, cs)
    else if c = '\\' then
      match cs with
      | [] => none
      | e :: cs2 =>
        if e = 'u' then
          match parseHex4 cs2 with
          | some (n, rest) => parseStringBody fuel rest (Char.ofNat n :: acc)
          | none => none
        else
          match escChar e with
          | some ec => parseStringBody fuel cs2 (ec :: acc)
          | none => none
    else if c.toNat < 32 then none
    else parseStringBody fuel cs (c :: acc)

/-- Optional fraction part of a JSON number (with its dot), as lexeme
characters. -/
def parseFrac : List Char → Option (List Char × List Char)
  | '.' :: r =>
    match r.span Char.isDigit with
    | (ds, r2) => if ds.isEmpty then none else some ('.' :: ds, r2)
  | cs => some ([], cs)

/-- Optional exponent part of a JSON number, as lexeme characters. -/
def parseExponent : List Char → Option (List Char × List Char)
  | [] => some ([], [])
  | c :: r =>
    if c = 'e' || c = 'E' then
      match (match r with
             | s :: r2 => if s = '+' || s = '-' then ([s], r2) else (([] : List Char), r)
             | [] => (([] : List Char), ([] : List Char))) with
      | (sign, r3) =>
        match r3.span Char.isDigit with
        | (ds, r4) => if ds.isEmpty then none else some (c :: (sign ++ ds), r4)
    else some ([], c :: r)

/-- A JSON number, returned as its lexeme.  Leading zeros are refused
except for a lone zero, as in `JSON.parse`. -/
def parseNumber (cs : List Char) : Option (String × List Char) :=
  match (match cs with
         | '-' :: r => (['-'], r)
         | _ => (([] : List Char), cs)) with
  | (negPart, cs1) =>
    match cs1.span Char.isDigit with
    | (intPart, r1) =>
      if intPart.isEmpty then none
      else if intPart.length > 1 && intPart.headD 'x' = '0' then none
      else
        match parseFrac r1 with
        | none => none
        | some (fracPart, r2) =>
          match parseExponent r2 with
          | none => none
          | some (expPart, r3) =>
            some (String.mk (negPart ++ intPart ++ fracPart ++ expPart), r3)

mutual

/-- A JSON value: string, object, array, literal or number.  The fuel
argument bounds the recursion depth; `parseJson` supplies enough fuel
for any input. -/
def parseValue : Nat → List Char → Option (JsonVal × List Char)
  | 0, _ => none
  | fuel + 1, cs =>
    match skipWs cs with
    | '"' :: rest =>
      match parseStringBody (rest.length + 1) rest [] with
      | some (s, r) => some (JsonVal.str s, r)
      | none => none
    | '{' :: rest => parseObjBody fuel rest
    | '[' :: rest => parseArrBody fuel rest
    | 't' :: 'r' :: 'u' :: 'e' :: rest => some (JsonVal.bool true, rest)
    | 'f' :: 'a' :: 'l' :: 's' :: 'e' :: rest => some (JsonVal.bool false, rest)
    | 'n' :: 'u' :: 'l' :: 'l' :: rest => some (JsonVal.null, rest)
    | cs2 =>
      match parseNumber cs2 with
      | some (lex, r) => some (JsonVal.num lex, r)
      | none => none

/-- Object body after the opening brace. -/
def parseObjBody : Nat → List Char → Option (JsonVal × List Char)
  | 0, _ => none
  | fuel + 1, cs =>
    match skipWs cs with
    | '}' :: rest => some (JsonVal.obj [], rest)
    | cs2 => parseMembers fuel cs2 []

/-- Members of a non-empty JSON object. -/
def parseMembers : Nat → List Char → List (String × JsonVal) → Option (JsonVal × List Char)
  | 0, _, _ => none
  | fuel + 1, cs, acc =>
    match skipWs cs with
    | '"' :: rest =>
      match parseStringBody (rest.length + 1) rest [] with
      | none => none
      | some (key, r1) =>
        match skipWs r1 with
        | ':' :: r2 =>
          match parseValue fuel r2 with
          | none => none
          | some (v, r3) =>
            match skipWs r3 with
            | ',' :: r4 => parseMembers fuel r4 (acc ++ [(key, v)])
            | '}' :: r4 => some (JsonVal.obj (acc ++ [(key, v)]), r4)
            | _ => none
        | _ => none
    | _ => none

/-- Array body after the opening bracket. -/
def parseArrBody : Nat → List Char → Option (JsonVal × List Char)
  | 0, _ => none
  | fuel + 1, cs =>
    match skipWs cs with
    | ']' :: rest => some (JsonVal.arr [], rest)
    | cs2 => parseElems fuel cs2 []

/-- Elements of a non-empty JSON array. -/
def parseElems : Nat → List Char → List JsonVal → Option (JsonVal × List Char)
  | 0, _, _ => none
  | fuel + 1, cs, acc =>
    match parseValue fuel cs with
    | none => none
    | some (v, r1) =>
      match skipWs r1 with
      | ',' :: r2 => parseElems fuel r2 (acc ++ [v])
      | ']' :: r2 => some (JsonVal.arr (acc ++ [v]), r2)
      | _ => none

end

/-- The model of `JSON.parse`: parse one value, allow surrounding
whitespace, and refuse trailing input. -/
def parseJson (s : String) : Option JsonVal :=
  match parseValue (3 * s.data.length + 3) s.data with
  | some (v, rest) => if skipWs rest = [] then some v else none
  | none => none

/-! ## The streaming client: src/api/chat.ts, sendMessageStream -/

/-- One invocation of one of the five optional callbacks of
`sendMessageStream`, carrying the JSON fields the source passes
(`none` models the JavaScript `undefined` for an absent field). -/
inductive CallbackCall where
  | onUserMessage (message : Option JsonVal)
  | onAssistantMessageStart (messageId timestamp : Option JsonVal)
  | onContent (content messageId : Option JsonVal)
  | onEnd (messageId : Option JsonVal)
  | onError (error : Option JsonVal)

/-- The model of JavaScript `chunk.split('\n')` on character lists:
splitting on the newline character, keeping empty pieces, so that a
string with n newlines yields n + 1 pieces. -/
def splitNlChars : List Char → List (List Char)
  | [] => [[]]
  | c :: cs =>
    if c = '\n' then [] :: splitNlChars cs
    else
      match splitNlChars cs with
      | [] => [[c]]
      | l :: ls => (c :: l) :: ls

/-- The lines of one decoded chunk: `chunk.split('\n')` of
src/api/chat.ts line 136. -/
def splitLines (s : String) : List String :=
  (splitNlChars s.data).map String.mk

/-- The test `line.startsWith('data: ')` of src/api/chat.ts line 139:
the line begins with the six characters of the frame marker. -/
def isDataLine (line : String) : Bool :=
  match line.data with
  | 'd' :: 'a' :: 't' :: 'a' :: ':' :: ' ' :: _ => true
  | _ => false

/-- The switch on `data.type` of src/api/chat.ts lines 143-159: each
known discriminator invokes one callback with the corresponding
fields of the parsed object; any other discriminator (or a non-string
one) falls through and invokes nothing. -/
def dispatchData (data : JsonVal) : List CallbackCall :=
  match data.getField "type" with
  | some (JsonVal.str t) =>
    if t = "user_message" then [CallbackCall.onUserMessage (data.getField "message")]
    else if t = "assistant_message_start" then
      [CallbackCall.onAssistantMessageStart (data.getField "messageId") (data.getField "timestamp")]
    else if t = "content" then
      [CallbackCall.onContent (data.getField "content") (data.getField "messageId")]
    else if t = "end" then [CallbackCall.onEnd (data.getField "messageId")]
    else if t = "error" then [CallbackCall.onError (data.getField "error")]
    else []
  | _ => []

/-- Processing of one line of a chunk (src/api/chat.ts lines 138-163):
lines not starting with the frame marker are ignored; on marked lines
the rest of the line is parsed as JSON, a parse failure is caught and
logged (invoking nothing), and a parsed object is dispatched. -/
def processLine (line : String) : List CallbackCall :=
  if isDataLine line then
    match parseJson (line.drop 6) with
    | none => []
    | some data => dispatchData data
  else []

/-- Processing of one decoded chunk (src/api/chat.ts lines 135-164):
the chunk is split on newlines and each resulting line is processed.
No text is carried over to the next chunk. -/
def processChunk (chunk : String) : List CallbackCall :=
  (splitLines chunk).flatMap processLine

/-- The payload strings the frame-decoding loop extracts from a
sequence of decoded chunks: per chunk, the lines starting with the
frame marker, with the six marker characters removed (the argument of
`JSON.parse` at src/api/chat.ts line 141). -/
def decodePayloads (chunks : List String) : List String :=
  chunks.flatMap (fun chunk =>
    ((splitLines chunk).filter isDataLine).map (fun l => l.drop 6))

/-- Modelled from the spec: the Event Frame Decoder of spec section
4.1, which the source does not implement — it maintains a rolling text
buffer, appends each chunk, splits on newline, emits the payloads of
complete marked lines and retains the trailing partial line for the
next chunk. -/
def rollingDecode (chunks : List String) : List String :=
  (chunks.foldl
    (fun acc chunk =>
      let parts := splitLines (acc.1 ++ chunk)
      (parts.getLastD "",
       acc.2 ++ (parts.dropLast.filter isDataLine).map (fun l => l.drop 6)))
    ("", [])).2

/-- The observable input of one `sendMessageStream` exchange: the
response's success flag and status text, and its body as a sequence of
decoded chunks (`none` when no readable body is available). -/
structure StreamResponse where
  ok : Bool
  statusText : String
  body : Option (List String)

/-- The model of `ChatAPI.sendMessageStream` (src/api/chat.ts lines
106-168) from the response on: a non-success status throws before any
reading; an absent body throws before any reading; otherwise every
chunk is processed in order.  The result is the ordered list of
callback invocations together with the error of a rejected operation
(`none` when the operation resolves). -/
def sendMessageStream (resp : StreamResponse) : List CallbackCall × Option String :=
  if resp.ok = false then
    ([], some ("Failed to send streaming message: " ++ resp.statusText))
  else
    match resp.body with
    | none => ([], some "Failed to get response reader")
    | some chunks => (chunks.flatMap processChunk, none)

/-! ## The conversation state cache: src/contexts/ChatContext.tsx -/

/-- The Message record of src/api/chat.ts lines 1-7.  `isStreaming`
is an optional field; `none` models its absence (`undefined`). -/
structure Message where
  id : String
  role : String
  content : String
  timestamp : String
  isStreaming : Option Bool
deriving DecidableEq

/-- The Conversation record of src/api/chat.ts lines 9-16. -/
structure Conversation where
  id : String
  title : String
  messages : List Message
  createdAt : String
  updatedAt : String
  userId : String
deriving DecidableEq

/-- The React Query cache slices the context mutates: the
conversation list under the conversations key, and one message list
per conversation id under the per-conversation messages key,
modelled as an association list. -/
structure Cache where
  conversations : List Conversation
  messages : List (String × List Message)
deriving DecidableEq

/-- The message list the cache holds for a conversation id: the first
entry with that key, or the source's `old = []` default when the key
is absent. -/
def msgsFor : List (String × List Message) → String → List Message
  | [], _ => []
  | (k, v) :: rest, cid => if k = cid then v else msgsFor rest cid

/-- The message list of one conversation in a cache. -/
def getMsgs (cache : Cache) (cid : String) : List Message :=
  msgsFor cache.messages cid

/-- The model of `queryClient.setQueryData` with an updater on the
per-conversation messages key: the first entry with the key is
updated in place; an absent key is created from the `old = []`
default. -/
def setEntry : List (String × List Message) → String → (List Message → List Message) → List (String × List Message)
  | [], cid, f => [(cid, f [])]
  | (k, v) :: rest, cid, f => if k = cid then (k, f v) :: rest else (k, v) :: setEntry rest cid f

/-- The model of `addMessageToCache` (src/contexts/ChatContext.tsx
lines 196-209): the message is appended at the tail of the target
conversation's message list, and the target conversation's
`updatedAt` is set to the current time `now`. -/
def addMessageToCache (cache : Cache) (conversationId : String) (message : Message) (now : String) : Cache :=
  { conversations :=
      cache.conversations.map (fun conv =>
        if conv.id = conversationId then { conv with updatedAt := now } else conv),
    messages := setEntry cache.messages conversationId (fun old => old ++ [message]) }

/-- The updater of `updateMessageInCache` on one message list
(src/contexts/ChatContext.tsx lines 212-218): the messages with the
given id get their content replaced, or the fragment appended when
`append` is set; all other messages are returned unchanged. -/
def updateMessageList (messageId content : String) (append : Bool) (old : List Message) : List Message :=
  old.map (fun msg =>
    if msg.id = messageId then
      { msg with content := if append then msg.content ++ content else content }
    else msg)

/-- The model of `updateMessageInCache` (src/contexts/ChatContext.tsx
lines 211-219). -/
def updateMessageInCache (cache : Cache) (conversationId messageId content : String) (append : Bool) : Cache :=
  { cache with
    messages := setEntry cache.messages conversationId (updateMessageList messageId content append) }

/-- The updater the `onEnd` handler applies to one message list
(src/contexts/ChatContext.tsx lines 275-281): the messages with the
given id get `isStreaming` set to false. -/
def finalizeMessageList (messageId : String) (old : List Message) : List Message :=
  old.map (fun msg =>
    if msg.id = messageId then { msg with isStreaming := some false } else msg)

/-- The title the `onEnd` handler computes from the user's message
text (src/contexts/ChatContext.tsx line 286). -/
def mkTitle (message : String) : String :=
  if message.length > 50 then message.take 50 ++ "..." else message

/-- The per-conversation update of the auto-title step
(src/contexts/ChatContext.tsx lines 288-294): the conversation with
the given id gets the computed title, every other one is returned
unchanged. -/
def setConvTitle (conversationId title : String) (conv : Conversation) : Conversation :=
  if conv.id = conversationId then { conv with title := title } else conv

/-- The auto-title step of the `onEnd` handler
(src/contexts/ChatContext.tsx lines 283-295): when the conversation
is found and the message list captured before the exchange
(`currentMessages` in the source) holds at most one message, every
cached conversation with the id gets the computed title.  The
captured conversation list and the cached one are identified here, as
in the source's single-threaded flow. -/
def applyAutoTitle (convs : List Conversation) (conversationId : String) (priorMessages : List Message) (message : String) : List Conversation :=
  if (convs.find? (fun conv => conv.id == conversationId)).isSome ∧ priorMessages.length ≤ 1 then
    convs.map (setConvTitle conversationId (mkTitle message))
  else convs

/-- The cache effect of the `onEnd` handler of `sendMessage`
(src/contexts/ChatContext.tsx lines 267-296): the ended message is
marked as no longer streaming, and the auto-title step runs. -/
def onEndCache (cache : Cache) (conversationId messageId : String) (priorMessages : List Message) (message : String) : Cache :=
  { conversations := applyAutoTitle cache.conversations conversationId priorMessages message,
    messages := setEntry cache.messages conversationId (finalizeMessageList messageId) }

/-- The typed lifecycle events a streamed exchange delivers to the
`sendMessage` callbacks. -/
inductive ChatEvent where
  | userMessage (message : Message)
  | assistantStart (messageId timestamp : String)
  | content (fragment messageId : String)
  | endMsg (messageId : String)

/-- The cache effect of one `sendMessage` callback
(src/contexts/ChatContext.tsx lines 240-296): `onUserMessage` appends
the stored user message; `onAssistantMessageStart` appends an empty
assistant message with `isStreaming` true; `onContent` appends the
fragment to the named message's content; `onEnd` finalizes the
message and runs the auto-title step.  `priorMessages` is the
`currentMessages` value captured by the closure, `userText` the sent
message text, and `now` the wall clock. -/
def applyChatEvent (conversationId : String) (priorMessages : List Message) (userText now : String) (cache : Cache) : ChatEvent → Cache
  | ChatEvent.userMessage m => addMessageToCache cache conversationId m now
  | ChatEvent.assistantStart mid ts =>
      addMessageToCache cache conversationId
        { id := mid, role := "assistant", content := "", timestamp := ts, isStreaming := some true } now
  | ChatEvent.content frag mid => updateMessageInCache cache conversationId mid frag true
  | ChatEvent.endMsg mid => onEndCache cache conversationId mid priorMessages userText

/-- The model of `deleteConversation`: the `useDeleteConversation`
success handler (src/contexts/ChatContext.tsx lines 103-111) removes
the conversation from the cached list and removes the messages cache
entry for its id; the context action (lines 329-345) then, when the
deleted conversation was the selected one, selects the head of the
remaining list, or nothing when none remain.  Returns the new cache
and the new selection. -/
def deleteConversation (cache : Cache) (currentConversationId : Option String) (conversationId : String) : Cache × Option String :=
  let cache2 : Cache :=
    { conversations := cache.conversations.filter (fun conv => conv.id != conversationId),
      messages := cache.messages.filter (fun e => e.1 != conversationId) }
  let sel : Option String :=
    if currentConversationId = some conversationId then
      match cache.conversations.filter (fun conv => conv.id != conversationId) with
      | [] => none
      | c :: _ => some c.id
    else currentConversationId
  (cache2, sel)

/-! ## Helper lemmas about the cache primitives -/

theorem msgsFor_setEntry_same (es : List (String × List Message)) (cid : String) (f : List Message → List Message) :
    msgsFor (setEntry es cid f) cid = f (msgsFor es cid) := by
  induction es with
  | nil => simp [setEntry, msgsFor]
  | cons e rest ih =>
    obtain ⟨k, v⟩ := e
    by_cases h : k = cid
    · simp [setEntry, msgsFor, h]
    · simp [setEntry, msgsFor, h, ih]

theorem msgsFor_setEntry_ne (es : List (String × List Message)) (cid cid2 : String) (f : List Message → List Message) (h : cid2 ≠ cid) :
    msgsFor (setEntry es cid f) cid2 = msgsFor es cid2 := by
  induction es with
  | nil =>
    simp only [setEntry, msgsFor]
    rw [if_neg (fun hc => h hc.symm)]
  | cons e rest ih =>
    obtain ⟨k, v⟩ := e
    simp only [setEntry]
    by_cases he : k = cid
    · rw [if_pos he]
      simp only [msgsFor]
      have hne : k ≠ cid2 := fun hc => h (hc.symm.trans he)
      rw [if_neg hne, if_neg hne]
    · rw [if_neg he]
      simp only [msgsFor]
      by_cases he2 : k = cid2
      · rw [if_pos he2, if_pos he2]
      · rw [if_neg he2, if_neg he2, ih]

theorem getMsgs_addMessageToCache_same (cache : Cache) (cid : String) (m : Message) (now : String) :
    getMsgs (addMessageToCache cache cid m now) cid = getMsgs cache cid ++ [m] := by
  simp [getMsgs, addMessageToCache, msgsFor_setEntry_same]

theorem getMsgs_addMessageToCache_ne (cache : Cache) (cid cid2 : String) (m : Message) (now : String) (h : cid2 ≠ cid) :
    getMsgs (addMessageToCache cache cid m now) cid2 = getMsgs cache cid2 := by
  simp [getMsgs, addMessageToCache, msgsFor_setEntry_ne _ _ _ _ h]

theorem getMsgs_updateMessageInCache_same (cache : Cache) (cid mid c : String) (a : Bool) :
    getMsgs (updateMessageInCache cache cid mid c a) cid = updateMessageList mid c a (getMsgs cache cid) := by
  simp [getMsgs, updateMessageInCache, msgsFor_setEntry_same]

theorem getMsgs_updateMessageInCache_ne (cache : Cache) (cid cid2 mid c : String) (a : Bool) (h : cid2 ≠ cid) :
    getMsgs (updateMessageInCache cache cid mid c a) cid2 = getMsgs cache cid2 := by
  simp [getMsgs, updateMessageInCache, msgsFor_setEntry_ne _ _ _ _ h]

theorem getMsgs_onEndCache_same (cache : Cache) (cid mid : String) (pm : List Message) (txt : String) :
    getMsgs (onEndCache cache cid mid pm txt) cid = finalizeMessageList mid (getMsgs cache cid) := by
  simp [getMsgs, onEndCache, msgsFor_setEntry_same]

theorem updateMessageList_no_match (mid c : String) (a : Bool) (l : List Message) (h : ∀ m ∈ l, m.id ≠ mid) :
    updateMessageList mid c a l = l := by
  induction l with
  | nil => rfl
  | cons m rest ih =>
    have hm : m.id ≠ mid := h m (by simp)
    have hrest : ∀ x ∈ rest, x.id ≠ mid := fun x hx => h x (by simp [hx])
    simp only [updateMessageList, List.map_cons, if_neg hm]
    have := ih hrest
    simp only [updateMessageList] at this
    rw [this]

theorem finalizeMessageList_no_match (mid : String) (l : List Message) (h : ∀ m ∈ l, m.id ≠ mid) :
    finalizeMessageList mid l = l := by
  induction l with
  | nil => rfl
  | cons m rest ih =>
    have hm : m.id ≠ mid := h m (by simp)
    have hrest : ∀ x ∈ rest, x.id ≠ mid := fun x hx => h x (by simp [hx])
    simp only [finalizeMessageList, List.map_cons, if_neg hm]
    have := ih hrest
    simp only [finalizeMessageList] at this
    rw [this]

theorem updateMessageList_append_one (mid c : String) (a : Bool) (l : List Message) (m : Message)
    (h : ∀ x ∈ l, x.id ≠ mid) (hm : m.id = mid) :
    updateMessageList mid c a (l ++ [m]) = l ++ [{ m with content := if a then m.content ++ c else c }] := by
  have hsplit : updateMessageList mid c a (l ++ [m]) = updateMessageList mid c a l ++ updateMessageList mid c a [m] := by
    simp [updateMessageList]
  rw [hsplit, updateMessageList_no_match mid c a l h]
  simp [updateMessageList, hm]

theorem finalizeMessageList_append_one (mid : String) (l : List Message) (m : Message)
    (h : ∀ x ∈ l, x.id ≠ mid) (hm : m.id = mid) :
    finalizeMessageList mid (l ++ [m]) = l ++ [{ m with isStreaming := some false }] := by
  have hsplit : finalizeMessageList mid (l ++ [m]) = finalizeMessageList mid l ++ finalizeMessageList mid [m] := by
    simp [finalizeMessageList]
  rw [hsplit, finalizeMessageList_no_match mid l h]
  simp [finalizeMessageList, hm]

theorem msgsFor_filter_self (es : List (String × List Message)) (cid : String) :
    msgsFor (es.filter (fun e => e.1 != cid)) cid = [] := by
  induction es with
  | nil => rfl
  | cons e rest ih =>
    obtain ⟨k, v⟩ := e
    by_cases h : k = cid
    · simp [List.filter_cons, h, ih]
    · simp [List.filter_cons, h, msgsFor, ih]

theorem msgsFor_filter_ne (es : List (String × List Message)) (cid cid2 : String) (h : cid2 ≠ cid) :
    msgsFor (es.filter (fun e => e.1 != cid)) cid2 = msgsFor es cid2 := by
  induction es with
  | nil => rfl
  | cons e rest ih =>
    obtain ⟨k, v⟩ := e
    by_cases hk : k = cid
    · have hne : k ≠ cid2 := fun hc => h (hc.symm.trans hk)
      have hcond : ((k, v).1 != cid) = false := by simp [hk]
      rw [List.filter_cons, hcond]
      simp only [Bool.false_eq_true, if_false]
      rw [ih]
      show msgsFor rest cid2 = msgsFor ((k, v) :: rest) cid2
      simp only [msgsFor]
      rw [if_neg hne]
    · have hcond : ((k, v).1 != cid) = true := by simp [hk]
      rw [List.filter_cons, hcond]
      simp only [if_true]
      show msgsFor ((k, v) :: List.filter (fun e => e.1 != cid) rest) cid2 =
        msgsFor ((k, v) :: rest) cid2
      simp only [msgsFor]
      by_cases hk2 : k = cid2
      · rw [if_pos hk2, if_pos hk2]
      · rw [if_neg hk2, if_neg hk2, ih]

/-! ## Sample data for concrete instantiations -/

def sampleMsg (i : String) : Message :=
  { id := i, role := "user", content := "hi", timestamp := "2024-01-01T00:00:00Z", isStreaming := none }

def sampleConv (i t : String) : Conversation :=
  { id := i, title := t, messages := [], createdAt := "2024-01-01T00:00:00Z",
    updatedAt := "2024-01-01T00:00:00Z", userId := "u" }

/-! ## Claim theorems -/

/-- C7: the end-event handler's clearing of the `isStreaming` flag for
a given message id is idempotent on the message list: applying it
twice yields the same list as applying it once, for every message
list and message id. -/
theorem finalizeMessage_idempotent (mid : String) (l : List Message) :
    finalizeMessageList mid (finalizeMessageList mid l) = finalizeMessageList mid l := by
  unfold finalizeMessageList
  rw [List.map_map]
  apply List.map_congr_left
  intro m _
  by_cases h : m.id = mid
  · simp [Function.comp, h]
  · simp [Function.comp, h]

/-- C8: patching message content with `updateMessageInCache` is a
no-op on the message list when the message id does not occur in it,
never touches the conversation list or another conversation's message
list, and when the id occurs changes only the content field of the
matched message, leaving its id, role, timestamp, `isStreaming` and
every other message unchanged (in replace mode the content becomes
the fragment, in append mode the fragment is concatenated). -/
theorem updateMessageInCache_frame (cache : Cache) (cid mid c : String) (a : Bool) :
    ((∀ m ∈ getMsgs cache cid, m.id ≠ mid) →
      getMsgs (updateMessageInCache cache cid mid c a) cid = getMsgs cache cid)
    ∧ (updateMessageInCache cache cid mid c a).conversations = cache.conversations
    ∧ (∀ cid2, cid2 ≠ cid → getMsgs (updateMessageInCache cache cid mid c a) cid2 = getMsgs cache cid2)
    ∧ (∀ i m, (getMsgs cache cid).get? i = some m →
        (m.id ≠ mid → (getMsgs (updateMessageInCache cache cid mid c a) cid).get? i = some m)
        ∧ (m.id = mid → (getMsgs (updateMessageInCache cache cid mid c a) cid).get? i =
            some { m with content := if a then m.content ++ c else c })) := by
  refine ⟨?_, rfl, ?_, ?_⟩
  · intro h
    rw [getMsgs_updateMessageInCache_same, updateMessageList_no_match _ _ _ _ h]
  · intro cid2 h
    exact getMsgs_updateMessageInCache_ne _ _ _ _ _ _ h
  · intro i m hm
    rw [getMsgs_updateMessageInCache_same]
    have hmap : (updateMessageList mid c a (getMsgs cache cid)).get? i =
        some (if m.id = mid then { m with content := if a then m.content ++ c else c } else m) := by
      unfold updateMessageList
      rw [List.get?_map, hm]
      rfl
    constructor
    · intro hne
      rw [hmap, if_neg hne]
    · intro heq
      rw [hmap, if_pos heq]

/-- C8 witness: on a concrete cache whose only message has id x,
patching id y is a no-op on the message list. -/
theorem updateMessageInCache_frame_witness :
    getMsgs (updateMessageInCache ⟨[], [("c", [sampleMsg "x"])]⟩ "c" "y" "z" true) "c" =
      getMsgs ⟨[], [("c", [sampleMsg "x"])]⟩ "c" :=
  (updateMessageInCache_frame ⟨[], [("c", [sampleMsg "x"])]⟩ "c" "y" "z" true).1 (by decide)

/-- C9: appending a message with `addMessageToCache` inserts it at
the tail of the target conversation's message list (preserving the
existing order), leaves every other conversation's message list
unchanged, sets the target conversation's `updatedAt` to the current
time while keeping its position and every other field, leaves
non-target conversations unchanged, and never decreases `updatedAt`
when the clock is monotone (the previous `updatedAt` is at most
`now`). -/
theorem addMessageToCache_spec (cache : Cache) (cid : String) (m : Message) (now : String) :
    getMsgs (addMessageToCache cache cid m now) cid = getMsgs cache cid ++ [m]
    ∧ (∀ cid2, cid2 ≠ cid → getMsgs (addMessageToCache cache cid m now) cid2 = getMsgs cache cid2)
    ∧ (∀ i conv, cache.conversations.get? i = some conv →
        (conv.id = cid → (addMessageToCache cache cid m now).conversations.get? i =
            some { conv with updatedAt := now })
        ∧ (conv.id ≠ cid → (addMessageToCache cache cid m now).conversations.get? i = some conv)
        ∧ (conv.updatedAt ≤ now → ∀ conv2,
            (addMessageToCache cache cid m now).conversations.get? i = some conv2 →
            conv.updatedAt ≤ conv2.updatedAt)) := by
  refine ⟨getMsgs_addMessageToCache_same cache cid m now, ?_, ?_⟩
  · intro cid2 h
    exact getMsgs_addMessageToCache_ne cache cid cid2 m now h
  · intro i conv hget
    have hmap : (addMessageToCache cache cid m now).conversations.get? i =
        some (if conv.id = cid then { conv with updatedAt := now } else conv) := by
      show (cache.conversations.map (fun conv =>
        if conv.id = cid then { conv with updatedAt := now } else conv)).get? i = _
      rw [List.get?_map, hget]
      rfl
    refine ⟨?_, ?_, ?_⟩
    · intro h
      rw [hmap, if_pos h]
    · intro h
      rw [hmap, if_neg h]
    · intro hle conv2 h2
      rw [hmap] at h2
      by_cases h : conv.id = cid
      · rw [if_pos h] at h2
        cases Option.some.inj h2
        exact hle
      · rw [if_neg h] at h2
        cases Option.some.inj h2
        exact le_refl _

/-- C9 witness: appending to a concrete one-conversation cache yields
the singleton message list and bumps `updatedAt` of the conversation
to the given time. -/
theorem addMessageToCache_spec_witness :
    getMsgs (addMessageToCache ⟨[sampleConv "c" "T"], []⟩ "c" (sampleMsg "m1") "2024-02-02T00:00:00Z") "c" =
      [sampleMsg "m1"]
    ∧ (addMessageToCache ⟨[sampleConv "c" "T"], []⟩ "c" (sampleMsg "m1") "2024-02-02T00:00:00Z").conversations.get? 0 =
      some { sampleConv "c" "T" with updatedAt := "2024-02-02T00:00:00Z" } := by
  have h := addMessageToCache_spec ⟨[sampleConv "c" "T"], []⟩ "c" (sampleMsg "m1") "2024-02-02T00:00:00Z"
  refine ⟨by simpa [getMsgs, msgsFor] using h.1, ?_⟩
  exact (h.2.2 0 (sampleConv "c" "T") rfl).1 rfl

/-- C6: deleting a conversation removes it and its message list from
the cache while preserving the rest in order; if it was the selected
conversation the selection becomes the head of the remaining list
(`none` when the remaining list is empty), and deleting a
non-selected conversation leaves the selection unchanged. -/
theorem deleteConversation_spec (cache : Cache) (sel : Option String) (cid : String) :
    (∀ conv ∈ (deleteConversation cache sel cid).1.conversations, conv.id ≠ cid)
    ∧ (deleteConversation cache sel cid).1.conversations =
        cache.conversations.filter (fun conv => conv.id != cid)
    ∧ getMsgs (deleteConversation cache sel cid).1 cid = []
    ∧ (∀ cid2, cid2 ≠ cid → getMsgs (deleteConversation cache sel cid).1 cid2 = getMsgs cache cid2)
    ∧ (sel = some cid → (deleteConversation cache sel cid).2 =
        ((deleteConversation cache sel cid).1.conversations.head?).map (fun conv => conv.id))
    ∧ (sel ≠ some cid → (deleteConversation cache sel cid).2 = sel) := by
  refine ⟨?_, rfl, ?_, ?_, ?_, ?_⟩
  · intro conv hmem
    have hp := (List.mem_filter.mp hmem).2
    simpa [bne_iff_ne] using hp
  · exact msgsFor_filter_self cache.messages cid
  · intro cid2 h
    exact msgsFor_filter_ne cache.messages cid cid2 h
  · intro h
    rcases hf : cache.conversations.filter (fun conv => conv.id != cid) with _ | ⟨c, rest⟩
    · simp [deleteConversation, h, hf]
    · simp [deleteConversation, h, hf]
  · intro h
    simp [deleteConversation, h]

/-- C6 witness: deleting the selected first conversation of three
selects the second one. -/
theorem deleteConversation_spec_witness :
    (deleteConversation
        ⟨[sampleConv "c1" "A", sampleConv "c2" "B", sampleConv "c3" "C"], []⟩
        (some "c1") "c1").2 =
      ((deleteConversation
        ⟨[sampleConv "c1" "A", sampleConv "c2" "B", sampleConv "c3" "C"], []⟩
        (some "c1") "c1").1.conversations.head?).map (fun conv => conv.id) :=
  (deleteConversation_spec
    ⟨[sampleConv "c1" "A", sampleConv "c2" "B", sampleConv "c3" "C"], []⟩
    (some "c1") "c1").2.2.2.2.1 rfl

/-- C3: when the assistant reply for a conversation with exactly one
prior message (the initiating user message) completes, the
conversation's title becomes the user's message text when it has at
most 50 characters and its first 50 characters followed by three dots
otherwise; re-running the auto-title step yields the same result
(idempotence); and a conversation with more than one prior message
keeps its title unchanged. -/
theorem sendMessage_auto_title (convs : List Conversation) (cid : String) (pm : List Message) (message : String) :
    (∀ i conv, convs.get? i = some conv → conv.id = cid → pm.length ≤ 1 →
      (applyAutoTitle convs cid pm message).get? i =
        some { conv with title := if message.length ≤ 50 then message else message.take 50 ++ "..." })
    ∧ applyAutoTitle (applyAutoTitle convs cid pm message) cid pm message =
        applyAutoTitle convs cid pm message
    ∧ (1 < pm.length → applyAutoTitle convs cid pm message = convs) := by
  have htitle : mkTitle message = (if message.length ≤ 50 then message else message.take 50 ++ "...") := by
    unfold mkTitle
    rcases Nat.lt_or_ge 50 message.length with h | h
    · rw [if_pos h, if_neg (by omega)]
    · rw [if_neg (by omega), if_pos h]
  refine ⟨?_, ?_, ?_⟩
  · intro i conv hget hid hlen
    have hmem : conv ∈ convs := List.get?_mem hget
    have hfind : (convs.find? (fun conv => conv.id == cid)).isSome = true := by
      rw [List.find?_isSome]
      exact ⟨conv, hmem, by simp [hid]⟩
    unfold applyAutoTitle
    rw [if_pos ⟨hfind, hlen⟩, List.get?_map, hget]
    simp [setConvTitle, hid, htitle]
  · unfold applyAutoTitle
    by_cases hc : (((convs.find? (fun conv => conv.id == cid)).isSome = true) ∧ pm.length ≤ 1)
    · rw [if_pos hc]
      have hfind2 : ((convs.map (setConvTitle cid (mkTitle message))).find?
          (fun conv => conv.id == cid)).isSome = true := by
        rw [List.find?_isSome]
        rcases List.find?_isSome.mp hc.1 with ⟨x, hx, hpx⟩
        refine ⟨setConvTitle cid (mkTitle message) x, List.mem_map_of_mem _ hx, ?_⟩
        simp only [setConvTitle]
        by_cases hxid : x.id = cid
        · simp [hxid]
        · simpa [hxid] using hpx
      rw [if_pos ⟨hfind2, hc.2⟩, List.map_map]
      apply List.map_congr_left
      intro conv _
      by_cases h : conv.id = cid
      · simp [Function.comp, setConvTitle, h]
      · simp [Function.comp, setConvTitle, h]
    · rw [if_neg hc, if_neg hc]
  · intro h
    have hnc : ¬(((convs.find? (fun conv => conv.id == cid)).isSome = true) ∧ pm.length ≤ 1) := by
      rintro ⟨-, hle⟩
      omega
    unfold applyAutoTitle
    rw [if_neg hnc]

/-- C3 witness: on a one-conversation cache with exactly the
initiating user message, the title becomes the two-character message
text; with two prior messages the list is unchanged. -/
theorem sendMessage_auto_title_witness :
    (applyAutoTitle [sampleConv "c" "New Chat"] "c" [sampleMsg "u1"] "hi").get? 0 =
      some { sampleConv "c" "New Chat" with title := "hi" }
    ∧ applyAutoTitle [sampleConv "c" "New Chat"] "c" [sampleMsg "u1", sampleMsg "a1"] "hi" =
      [sampleConv "c" "New Chat"] := by
  refine ⟨?_, (sendMessage_auto_title [sampleConv "c" "New Chat"] "c" [sampleMsg "u1", sampleMsg "a1"] "hi").2.2 (by decide)⟩
  have h := (sendMessage_auto_title [sampleConv "c" "New Chat"] "c" [sampleMsg "u1"] "hi").1
    0 (sampleConv "c" "New Chat") rfl rfl (by decide)
  exact h

/-- C2: the event sequence user message, assistant start (id a),
content "Hel" for a, content "lo" for a, end for a — applied through
the `sendMessage` callbacks to any cache whose target conversation
does not already hold a message with id a — leaves the conversation's
message list extended by the user message and by message a with
content exactly "Hello" (the fragments concatenated in receipt order,
never replacing prior content) and `isStreaming` false. -/
theorem sendMessage_event_sequence (cache : Cache) (cid aid ts now userText : String)
    (pm : List Message) (u : Message)
    (hu : u.id ≠ aid) (hold : ∀ m ∈ getMsgs cache cid, m.id ≠ aid) :
    getMsgs
      (List.foldl (applyChatEvent cid pm userText now) cache
        [ChatEvent.userMessage u, ChatEvent.assistantStart aid ts,
         ChatEvent.content "Hel" aid, ChatEvent.content "lo" aid, ChatEvent.endMsg aid])
      cid
    = getMsgs cache cid ++
      [u, { id := aid, role := "assistant", content := "Hello", timestamp := ts,
            isStreaming := some false }] := by
  have hMu : ∀ x ∈ getMsgs cache cid ++ [u], x.id ≠ aid := by
    intro x hx
    rcases List.mem_append.mp hx with h | h
    · exact hold x h
    · rw [List.mem_singleton.mp h]
      exact hu
  simp only [List.foldl, applyChatEvent]
  rw [getMsgs_onEndCache_same, getMsgs_updateMessageInCache_same,
      getMsgs_updateMessageInCache_same, getMsgs_addMessageToCache_same,
      getMsgs_addMessageToCache_same]
  rw [updateMessageList_append_one aid "Hel" true _ _ hMu rfl]
  rw [updateMessageList_append_one aid "lo" true _ _ hMu rfl]
  rw [finalizeMessageList_append_one aid _ _ hMu rfl]
  rw [List.append_assoc]
  rfl

/-- C2 witness: the event sequence on the empty cache yields exactly
the user message and the finalized assistant message "Hello". -/
theorem sendMessage_event_sequence_witness :
    getMsgs
      (List.foldl (applyChatEvent "c" [] "hello" "2024-01-01T00:00:00Z") ⟨[], []⟩
        [ChatEvent.userMessage (sampleMsg "u1"),
         ChatEvent.assistantStart "a1" "2024-01-01T00:00:01Z",
         ChatEvent.content "Hel" "a1", ChatEvent.content "lo" "a1", ChatEvent.endMsg "a1"])
      "c"
    = [sampleMsg "u1",
       { id := "a1", role := "assistant", content := "Hello",
         timestamp := "2024-01-01T00:00:01Z", isStreaming := some false }] := by
  have h := sendMessage_event_sequence ⟨[], []⟩ "c" "a1" "2024-01-01T00:00:01Z"
    "2024-01-01T00:00:00Z" "hello" [] (sampleMsg "u1") (by decide)
    (by intro m hm; simp [getMsgs, msgsFor] at hm)
  simpa [getMsgs, msgsFor] using h

theorem processLine_eq_nil_of_parse_none (line : String) (hdata : isDataLine line = true)
    (hparse : parseJson (line.drop 6) = none) : processLine line = [] := by
  unfold processLine
  rw [if_pos hdata, hparse]

theorem processChunk_two_line (bad badline : String)
    (hsplit : splitLines bad = [badline, ""]) (hline : processLine badline = []) :
    processChunk bad = [] := by
  have hempty : processLine "" = [] := rfl
  rw [processChunk, hsplit]
  simp only [List.flatMap_cons, List.flatMap_nil, List.append_nil, hline, hempty]

theorem dispatchData_eq_nil (d : JsonVal)
    (htype : ∀ t, d.getField "type" = some (JsonVal.str t) →
      t ≠ "user_message" ∧ t ≠ "assistant_message_start" ∧ t ≠ "content" ∧ t ≠ "end" ∧ t ≠ "error") :
    dispatchData d = [] := by
  unfold dispatchData
  cases hg : d.getField "type" with
  | none => rfl
  | some v =>
    cases v with
    | null => rfl
    | bool b => rfl
    | num s => rfl
    | arr xs => rfl
    | obj fs => rfl
    | str t =>
      obtain ⟨n1, n2, n3, n4, n5⟩ := htype t hg
      simp [n1, n2, n3, n4, n5]

/-- C4: when the initial response has a non-success status, or the
response has no readable body, `sendMessageStream` rejects with a
descriptive error and none of the five callbacks is ever invoked. -/
theorem sendMessageStream_transport_failure (resp : StreamResponse)
    (h : resp.ok = false ∨ resp.body = none) :
    (sendMessageStream resp).1 = []
    ∧ ((sendMessageStream resp).2 = some ("Failed to send streaming message: " ++ resp.statusText)
      ∨ (sendMessageStream resp).2 = some "Failed to get response reader") := by
  rcases h with h | h
  · exact ⟨by simp [sendMessageStream, h], Or.inl (by simp [sendMessageStream, h])⟩
  · cases hok : resp.ok
    · exact ⟨by simp [sendMessageStream, hok], Or.inl (by simp [sendMessageStream, hok])⟩
    · exact ⟨by simp [sendMessageStream, hok, h], Or.inr (by simp [sendMessageStream, hok, h])⟩

/-- C4 witness: a 500-style response with no body rejects with the
transport error and an empty callback trace. -/
theorem sendMessageStream_transport_failure_witness :
    (sendMessageStream ⟨false, "Internal Server Error", none⟩).1 = []
    ∧ ((sendMessageStream ⟨false, "Internal Server Error", none⟩).2 =
        some ("Failed to send streaming message: " ++ "Internal Server Error")
      ∨ (sendMessageStream ⟨false, "Internal Server Error", none⟩).2 =
        some "Failed to get response reader") :=
  sendMessageStream_transport_failure ⟨false, "Internal Server Error", none⟩ (Or.inl rfl)

/-- C5: a stream holding one frame whose payload is malformed JSON
between two valid frames makes `sendMessageStream` skip the malformed
frame without raising an error and deliver exactly the callbacks of
the two valid frames, in arrival order. -/
theorem sendMessageStream_malformed_frame_skipped
    (c1 c2 bad badline st : String) (e1 e2 : CallbackCall)
    (h1 : processChunk c1 = [e1]) (h2 : processChunk c2 = [e2])
    (hsplit : splitLines bad = [badline, ""])
    (hdata : isDataLine badline = true)
    (hparse : parseJson (badline.drop 6) = none) :
    sendMessageStream { ok := true, statusText := st, body := some [c1, bad, c2] } = ([e1, e2], none) := by
  have hbadline := processLine_eq_nil_of_parse_none badline hdata hparse
  have hbad : processChunk bad = [] := processChunk_two_line bad badline hsplit hbadline
  simp [sendMessageStream, h1, h2, hbad]

/-- C5 witness: a content frame, the literal malformed frame of the
spec, and an end frame yield exactly the content and end callbacks. -/
theorem sendMessageStream_malformed_frame_skipped_witness :
    sendMessageStream
      { ok := true, statusText := "",
        body := some ["data: \x7b\"type\":\"content\",\"content\":\"A\",\"messageId\":\"m\"\x7d\n",
                      "data: \x7bnot json\x7d\n",
                      "data: \x7b\"type\":\"end\",\"messageId\":\"m\"\x7d\n"] } =
      ([CallbackCall.onContent (some (JsonVal.str "A")) (some (JsonVal.str "m")),
        CallbackCall.onEnd (some (JsonVal.str "m"))], none) :=
  sendMessageStream_malformed_frame_skipped
    "data: \x7b\"type\":\"content\",\"content\":\"A\",\"messageId\":\"m\"\x7d\n"
    "data: \x7b\"type\":\"end\",\"messageId\":\"m\"\x7d\n"
    "data: \x7bnot json\x7d\n"
    "data: \x7bnot json\x7d"
    ""
    (CallbackCall.onContent (some (JsonVal.str "A")) (some (JsonVal.str "m")))
    (CallbackCall.onEnd (some (JsonVal.str "m")))
    rfl rfl rfl rfl rfl

/-- C10: a frame whose payload parses as JSON but whose type
discriminator is none of the five known event types invokes no
callback and raises no error, and processing continues with the
surrounding frames. -/
theorem sendMessageStream_unknown_type_ignored
    (c1 c2 bad badline st : String) (d : JsonVal) (e1 e2 : CallbackCall)
    (h1 : processChunk c1 = [e1]) (h2 : processChunk c2 = [e2])
    (hsplit : splitLines bad = [badline, ""])
    (hdata : isDataLine badline = true)
    (hparse : parseJson (badline.drop 6) = some d)
    (htype : ∀ t, d.getField "type" = some (JsonVal.str t) →
      t ≠ "user_message" ∧ t ≠ "assistant_message_start" ∧ t ≠ "content" ∧ t ≠ "end" ∧ t ≠ "error") :
    sendMessageStream { ok := true, statusText := st, body := some [c1, bad, c2] } = ([e1, e2], none) := by
  have hdisp : dispatchData d = [] := dispatchData_eq_nil d htype
  have hbadline : processLine badline = [] := by
    unfold processLine
    rw [if_pos hdata, hparse]
    exact hdisp
  have hbad : processChunk bad = [] := processChunk_two_line bad badline hsplit hbadline
  simp [sendMessageStream, h1, h2, hbad]

/-- C10 witness: a frame of type bogus between a content frame and an
end frame yields exactly the content and end callbacks. -/
theorem sendMessageStream_unknown_type_ignored_witness :
    sendMessageStream
      { ok := true, statusText := "",
        body := some ["data: \x7b\"type\":\"content\",\"content\":\"A\",\"messageId\":\"m\"\x7d\n",
                      "data: \x7b\"type\":\"bogus\"\x7d\n",
                      "data: \x7b\"type\":\"end\",\"messageId\":\"m\"\x7d\n"] } =
      ([CallbackCall.onContent (some (JsonVal.str "A")) (some (JsonVal.str "m")),
        CallbackCall.onEnd (some (JsonVal.str "m"))], none) :=
  sendMessageStream_unknown_type_ignored
    "data: \x7b\"type\":\"content\",\"content\":\"A\",\"messageId\":\"m\"\x7d\n"
    "data: \x7b\"type\":\"end\",\"messageId\":\"m\"\x7d\n"
    "data: \x7b\"type\":\"bogus\"\x7d\n"
    "data: \x7b\"type\":\"bogus\"\x7d"
    ""
    (JsonVal.obj [("type", JsonVal.str "bogus")])
    (CallbackCall.onContent (some (JsonVal.str "A")) (some (JsonVal.str "m")))
    (CallbackCall.onEnd (some (JsonVal.str "m")))
    rfl rfl rfl rfl rfl
    (by
      intro t ht
      have ht2 : (some (JsonVal.str "bogus") : Option JsonVal) = some (JsonVal.str t) := ht
      injection ht2 with h3
      injection h3 with h4
      subst h4
      exact ⟨by decide, by decide, by decide, by decide, by decide⟩)

/-- C1: refuted on the code.  The frame-decoding loop of
`sendMessageStream` splits each decoded chunk on newline with no
rolling buffer (src/api/chat.ts lines 135-139), so splitting the
well-formed stream of the single line data: hello after its eighth
character changes the decoded payload sequence from ["hello"] to
["he"], silently corrupting the frame, while the rolling-buffer
decoder the spec describes is split-invariant on this stream. -/
theorem frameDecoder_split_sensitive :
    decodePayloads ["data: hello\n"] = ["hello"]
    ∧ decodePayloads ["data: he", "llo\n"] = ["he"]
    ∧ decodePayloads ["data: he", "llo\n"] ≠ decodePayloads ["data: hello\n"]
    ∧ rollingDecode ["data: hello\n"] = ["hello"]
    ∧ rollingDecode ["data: he", "llo\n"] = ["hello"] :=
  ⟨rfl, rfl, by decide, rfl, rfl⟩

end Chatask
